import Mathlib

/-!
Shallow embedding of the map-generation / routing / camera / rendering core
of the ride-hailing navigation screen (src/main.js), together with theorems
settling the specification claims.  JS numbers are modelled as exact
rationals (the arithmetic used by the core is +, *, /, abs, min, max and
comparisons, all exact on the inputs of interest); fallible or host-raster
behaviour is made explicit.
-/

namespace UberClone

/-- A 2-D point, in virtual-map space or screen space (`{x, y}` in the JS). -/
structure Point where
  x : ℚ
  y : ℚ
deriving DecidableEq

/-- A road segment as produced by `createFixedRoadGrid`:
`{points, width, main}`. -/
structure RoadSeg where
  points : List Point
  width : ℚ
  main : Bool
deriving DecidableEq

/-- The value returned by `createFixedRoadGrid`: `{roads, hYs, vXs}` where
`hYs`/`vXs` are the fraction lists of the horizontal/vertical lattice lines. -/
structure RoadGrid where
  roads : List RoadSeg
  hYs : List ℚ
  vXs : List ℚ

/-- The fixed horizontal road fractions of `createFixedRoadGrid`. -/
def hYfracs : List ℚ :=
  [6/100, 14/100, 22/100, 30/100, 38/100, 46/100,
   54/100, 62/100, 70/100, 78/100, 86/100, 94/100]

/-- The fixed vertical road fractions of `createFixedRoadGrid`. -/
def vXfracs : List ℚ :=
  [8/100, 20/100, 32/100, 44/100, 56/100, 68/100, 80/100, 92/100]

/-- One horizontal road of `createFixedRoadGrid` (index `i`, fraction `frac`). -/
def hRoadSeg (mapW mapH : ℚ) (i : ℕ) (frac : ℚ) : RoadSeg :=
  { points := [⟨-50, mapH * frac⟩, ⟨mapW + 50, mapH * frac⟩]
    width := if i % 3 = 0 then 8 else 3
    main := i % 3 == 0 }

/-- One vertical road of `createFixedRoadGrid` (index `i`, fraction `frac`). -/
def vRoadSeg (mapW mapH : ℚ) (i : ℕ) (frac : ℚ) : RoadSeg :=
  { points := [⟨mapW * frac, -50⟩, ⟨mapW * frac, mapH + 50⟩]
    width := if i % 3 = 0 then 7 else 5/2
    main := i % 3 == 0 }

/-- `Array.prototype.forEach((elem, i) => ...)` collecting its pushes:
map with the element index, starting at `i`. -/
def mapIdxFrom (f : ℕ → α → β) : ℕ → List α → List β
  | _, [] => []
  | i, a :: as => f i a :: mapIdxFrom f (i + 1) as

/-- The two fixed angled roads pushed at the end of `createFixedRoadGrid`. -/
def diagSegs (mapW mapH : ℚ) : List RoadSeg :=
  [{ points := [⟨mapW * (8/100), mapH * (8/100)⟩,
                ⟨mapW * (55/100), mapH * (42/100)⟩],
     width := 4, main := false },
   { points := [⟨mapW * (65/100), mapH * (15/100)⟩,
                ⟨mapW * (88/100), mapH * (65/100)⟩],
     width := 7/2, main := false }]

/-- `createFixedRoadGrid(mapW, mapH)`: 12 horizontal roads, 8 vertical roads
(every third one main), then the two fixed angled roads. -/
def createFixedRoadGrid (mapW mapH : ℚ) : RoadGrid :=
  { roads :=
      mapIdxFrom (hRoadSeg mapW mapH) 0 hYfracs
      ++ mapIdxFrom (vRoadSeg mapW mapH) 0 vXfracs
      ++ diagSegs mapW mapH
    hYs := hYfracs
    vXs := vXfracs }

/-- The `nearestVX`/`nearestHY` helper of `buildGridRoute`: starting from the
first lattice value, replace the best candidate whenever a strictly closer
scaled fraction is found (so ties keep the earlier candidate).  On an empty
fraction list the JS reads `undefined` and yields `NaN`; the model starts
from `0` there, and every theorem about it assumes a non-empty lattice. -/
def nearestLine (fracs : List ℚ) (scale target : ℚ) : ℚ :=
  fracs.foldl
    (fun best f => if |f * scale - target| < |best - target| then f * scale else best)
    (fracs.headD 0 * scale)

/-- `buildGridRoute(sx, sy, ex, ey, hYs, vXs, mapW, mapH)`: the grid-snapping
router.  Conditional `route.push` calls become conditional singleton lists. -/
def buildGridRoute (sx sy ex ey : ℚ) (hYs vXs : List ℚ) (mapW mapH : ℚ) :
    List Point :=
  let vRoad1 := nearestLine vXs mapW sx
  let hMid := nearestLine hYs mapH ((sy + ey) * (45/100))
  let vRoad2 := nearestLine vXs mapW ex
  let hEnd := nearestLine hYs mapH ey
  [⟨sx, sy⟩]
    ++ (if |vRoad1 - sx| > 3 then [⟨vRoad1, sy⟩] else [])
    ++ [⟨vRoad1, hMid⟩, ⟨vRoad2, hMid⟩]
    ++ (if |hEnd - hMid| > 20 then
          [⟨vRoad2, hEnd⟩] ++ (if |vRoad2 - ex| > 3 then [⟨ex, hEnd⟩] else [])
        else [])
    ++ [⟨ex, ey⟩]

/-- Spec-side `nearest`: the first candidate (in lattice order) attaining the
minimum absolute distance to `t`; `none` on an empty candidate list.  Written
from the spec's words "nearest by absolute distance; ties resolve to the
first candidate in lattice order", to be compared with `nearestLine`. -/
def firstNearestTo (t : ℚ) : List ℚ → Option ℚ
  | [] => none
  | c :: cs =>
      match firstNearestTo t cs with
      | none => some c
      | some d => if |d - t| < |c - t| then some d else some c

/-- Spec-side router, written from the spec's Router algorithm steps 1–5:
snap to the first-nearest candidate, jog thresholds 3 / 20 units, the
`(end.x, hEnd)` insertion nested inside the second-jog branch. -/
def buildGridRouteSpec (s e : Point) (hYs vXs : List ℚ) (mapW mapH : ℚ) :
    List Point :=
  let vRoad1 := (firstNearestTo s.x (vXs.map (· * mapW))).getD 0
  let hMid := (firstNearestTo ((s.y + e.y) * (45/100)) (hYs.map (· * mapH))).getD 0
  let vRoad2 := (firstNearestTo e.x (vXs.map (· * mapW))).getD 0
  let hEnd := (firstNearestTo e.y (hYs.map (· * mapH))).getD 0
  [s]
    ++ (if |vRoad1 - s.x| > 3 then [⟨vRoad1, s.y⟩] else [])
    ++ [⟨vRoad1, hMid⟩, ⟨vRoad2, hMid⟩]
    ++ (if |hEnd - hMid| > 20 then
          [⟨vRoad2, hEnd⟩] ++ (if |vRoad2 - e.x| > 3 then [⟨e.x, hEnd⟩] else [])
        else [])
    ++ [e]

/-! ### Buildings (`createFixedBuildings`) -/

/-- One step of the Park–Miller / Lehmer generator used by
`createFixedBuildings`: `s := (s * 16807) % 2147483647` (JS `%` is the
truncated remainder, `Int.tmod`). -/
def lehmerNext (s : ℤ) : ℤ := (s * 16807).tmod 2147483647

/-- The value returned by one `rng()` call once the state has advanced to
`s`: `(s - 1) / 2147483646`. -/
def rngVal (s : ℤ) : ℚ := ((s : ℚ) - 1) / 2147483646

/-- The Lehmer state after `n` calls to `rng()` starting from `seed`. -/
def lehmerState (seed : ℤ) : ℕ → ℤ
  | 0 => seed
  | n + 1 => lehmerNext (lehmerState seed n)

/-- A building record: position, size, the three HSL colour draws
(`hsl(215+r*25, (12+r*12)%, (10+r*10)%)`) and the lit flag. -/
structure Building where
  x : ℚ
  y : ℚ
  w : ℚ
  h : ℚ
  hue : ℚ
  sat : ℚ
  lig : ℚ
  lit : Bool
deriving DecidableEq

/-- One loop iteration of `createFixedBuildings`: eight successive `rng()`
draws (x, y, w, h, the three colour components, lit), returning the building
and the advanced generator state. -/
def mkBuilding (mapW mapH : ℚ) (s : ℤ) : Building × ℤ :=
  let s1 := lehmerNext s
  let s2 := lehmerNext s1
  let s3 := lehmerNext s2
  let s4 := lehmerNext s3
  let s5 := lehmerNext s4
  let s6 := lehmerNext s5
  let s7 := lehmerNext s6
  let s8 := lehmerNext s7
  ({ x := rngVal s1 * (mapW + 80) - 40
     y := rngVal s2 * (mapH + 80) - 40
     w := 12 + rngVal s3 * 50
     h := 12 + rngVal s4 * 40
     hue := 215 + rngVal s5 * 25
     sat := 12 + rngVal s6 * 12
     lig := 10 + rngVal s7 * 10
     lit := decide (rngVal s8 > 65/100) }, s8)

/-- The `for` loop of `createFixedBuildings`, `n` iterations from state `s`. -/
def buildingsLoop (mapW mapH : ℚ) : ℕ → ℤ → List Building
  | 0, _ => []
  | n + 1, s =>
      let p := mkBuilding mapW mapH s
      p.1 :: buildingsLoop mapW mapH n p.2

/-- `createFixedBuildings(mapW, mapH, seed)`: 110 buildings from the Lehmer
stream seeded with `seed`. -/
def createFixedBuildings (mapW mapH : ℚ) (seed : ℤ) : List Building :=
  buildingsLoop mapW mapH 110 seed

/-! ### Camera transform and GPS drift -/

/-- `const ZOOM = 2.2`. -/
def ZOOM : ℚ := 11/5

/-- `updateMapTransform`'s translation: `(screenW/2 - carPos.x*ZOOM + gpsOffsetX,
screenH/2 - carPos.y*ZOOM + gpsOffsetY)`, applied to the canvas as
`translate(tx, ty) scale(ZOOM)` with origin `0 0`. -/
def updateMapTransform (screenW screenH : ℚ) (carPos : Point)
    (gpsOffsetX gpsOffsetY : ℚ) : ℚ × ℚ :=
  (screenW / 2 - carPos.x * ZOOM + gpsOffsetX,
   screenH / 2 - carPos.y * ZOOM + gpsOffsetY)

/-- The spec's `computeTransform(screenW, screenH, camera)` with a general
zoom: `translateX = screenW/2 - trackedPosition.x*zoom + driftOffset.x`,
`translateY` symmetric, `scale = zoom`. -/
def computeTransform (screenW screenH zoom : ℚ) (tracked drift : Point) :
    ℚ × ℚ :=
  (screenW / 2 - tracked.x * zoom + drift.x,
   screenH / 2 - tracked.y * zoom + drift.y)

/-- The effect of the CSS `translate(tx, ty) scale(zoom)` transform with
`transform-origin: 0 0` on a point of the translated surface. -/
def applyTransform (tx ty zoom : ℚ) (p : Point) : Point :=
  ⟨tx + p.x * zoom, ty + p.y * zoom⟩

/-- The mutable navigation state of the module: `currentCarPos`,
`gpsBaseLatLng`, `gpsOffsetX`, `gpsOffsetY`. -/
structure NavState where
  currentCarPos : Point
  gpsBaseLatLng : Option (ℚ × ℚ)
  gpsOffsetX : ℚ
  gpsOffsetY : ℚ

/-- Componentwise clamp of a raw drift offset, as in the GPS watcher:
`x` to `[-100, 100]` and `y` to `[-150, 150]`. -/
def clampDrift (raw : Point) : Point :=
  ⟨max (-100) (min 100 raw.x), max (-150) (min 150 raw.y)⟩

/-- One drift update: store the clamped raw offset
(`gpsOffsetX = max(-100, min(100, ...))`, `gpsOffsetY` likewise). -/
def applyDrift (st : NavState) (raw : Point) : NavState :=
  { st with
    gpsOffsetX := max (-100) (min 100 raw.x)
    gpsOffsetY := max (-150) (min 150 raw.y) }

/-- The navigation state after a fresh reset (`gpsOffset = (0,0)`,
no GPS baseline) followed by a sequence of drift updates. -/
def driftAfter (carPos : Point) (updates : List Point) : NavState :=
  updates.foldl applyDrift ⟨carPos, none, 0, 0⟩

/-- `const MAP_SCALE = 1200`. -/
def MAP_SCALE : ℚ := 1200

/-- `renderNavRoute(routeStart, routeEnd, labels)`'s state effect and route:
builds the 1200×1200 grid and route, then resets `currentCarPos` to the
route start and clears the GPS baseline and offsets (the raster effect of
its `drawMap` call is modelled separately by `drawMap` below).  Returns the
new navigation state, the computed route, and the transform installed by the
final `updateMapTransform()` call. -/
def renderNavRoute (screenW screenH : ℚ) (_st : NavState)
    (routeStart routeEnd : Point) : NavState × List Point × (ℚ × ℚ) :=
  let grid := createFixedRoadGrid MAP_SCALE MAP_SCALE
  let route := buildGridRoute routeStart.x routeStart.y routeEnd.x routeEnd.y
    grid.hYs grid.vXs MAP_SCALE MAP_SCALE
  let st' : NavState :=
    { currentCarPos := routeStart
      gpsBaseLatLng := none
      gpsOffsetX := 0
      gpsOffsetY := 0 }
  (st', route, updateMapTransform screenW screenH st'.currentCarPos
    st'.gpsOffsetX st'.gpsOffsetY)

/-! ### Renderer (`drawMap`)

The canvas is modelled as a colour-valued function on rational pixel
coordinates; each canvas call becomes an overlay operation that repaints the
pixels it covers and leaves the rest of the surface untouched.  Arc-length
dash phase and font glyph rasterisation are host-rasteriser facts with no
rational closed form, so they are abstracted into a `RasterEnv` the whole
pipeline is parameterised over. -/

/-- An RGBA colour with premultiplied-alpha channels in `[0, 1]`. -/
structure Color where
  r : ℚ
  g : ℚ
  b : ℚ
  a : ℚ
deriving DecidableEq

/-- Porter–Duff source-over compositing on premultiplied colours, the
canvas's default `globalCompositeOperation`. -/
def blendOver (src dst : Color) : Color :=
  ⟨src.r + dst.r * (1 - src.a), src.g + dst.g * (1 - src.a),
   src.b + dst.b * (1 - src.a), src.a + dst.a * (1 - src.a)⟩

/-- An opaque colour from 0–255 channel values. -/
def rgb (r g b : ℚ) : Color := ⟨r / 255, g / 255, b / 255, 1⟩

/-- A translucent colour from 0–255 channel values and an alpha,
premultiplied. -/
def rgba (r g b a : ℚ) : Color := ⟨r / 255 * a, g / 255 * a, b / 255 * a, a⟩

/-- CSS `hsl(h, s%, l%)` to an opaque colour (piecewise-linear, exact). -/
def hslColor (h s l : ℚ) : Color :=
  let s' := s / 100
  let l' := l / 100
  let c := (1 - |2 * l' - 1|) * s'
  let h' := h / 60
  let hmod := h' - 2 * ((⌊h' / 2⌋ : ℤ) : ℚ)
  let x := c * (1 - |hmod - 1|)
  let m := l' - c / 2
  let rgb1 : ℚ × ℚ × ℚ :=
    if h' < 1 then (c, x, 0)
    else if h' < 2 then (x, c, 0)
    else if h' < 3 then (0, c, x)
    else if h' < 4 then (0, x, c)
    else if h' < 5 then (x, 0, c)
    else (c, 0, x)
  ⟨rgb1.1 + m, rgb1.2.1 + m, rgb1.2.2 + m, 1⟩

/-- The raster surface: colour at each (sub)pixel coordinate. -/
def Surface : Type := ℚ → ℚ → Color

/-- One draw call: the set of pixels it covers and how it repaints them. -/
structure DrawOp where
  cover : ℚ → ℚ → Bool
  paint : ℚ → ℚ → Color → Color

/-- Apply one draw op to the surface. -/
def applyOp (s : Surface) (op : DrawOp) : Surface :=
  fun px py => if op.cover px py then op.paint px py (s px py) else s px py

/-- Apply a sequence of draw calls in order. -/
def applyOps (ops : List DrawOp) (s : Surface) : Surface :=
  ops.foldl applyOp s

/-- Host-rasteriser oracles: dash coverage of a dashed polyline stroke
(arc-length phase is irrational for oblique segments) and glyph coverage of
`fillText`.  Fixed by the host; the pipeline is deterministic relative to it. -/
structure RasterEnv where
  dashCover : List Point → ℚ → ℚ → ℚ → Bool
  textCover : String → ℚ → ℚ → ℚ → ℚ → Bool

/-- Membership in the closed axis-aligned rectangle of `fillRect`. -/
def inRect (x y w h px py : ℚ) : Bool :=
  decide (x ≤ px ∧ px ≤ x + w ∧ y ≤ py ∧ py ≤ y + h)

/-- `clearRect`: reset the covered pixels to transparent black. -/
def opClearRect (x y w h : ℚ) : DrawOp :=
  { cover := inRect x y w h, paint := fun _ _ _ => ⟨0, 0, 0, 0⟩ }

/-- `fillRect` with the current fill colour. -/
def opFillRect (x y w h : ℚ) (c : Color) : DrawOp :=
  { cover := inRect x y w h, paint := fun _ _ dst => blendOver c dst }

/-- `strokeRect` with line width `lw`: the rectangular ring of pixels within
`lw/2` of the rectangle outline (Chebyshev distance on each edge band). -/
def opStrokeRect (x y w h lw : ℚ) (c : Color) : DrawOp :=
  { cover := fun px py =>
      (inRect (x - lw/2) (y - lw/2) (w + lw) (h + lw) px py) &&
      !(inRect (x + lw/2) (y + lw/2) (w - lw) (h - lw) px py)
    paint := fun _ _ dst => blendOver c dst }

/-- A filled ellipse (`ctx.ellipse` + `fill`, rotation 0, full sweep). -/
def opFillEllipse (cx cy rx ry : ℚ) (c : Color) : DrawOp :=
  { cover := fun px py =>
      decide ((px - cx)^2 * ry^2 + (py - cy)^2 * rx^2 ≤ rx^2 * ry^2)
    paint := fun _ _ dst => blendOver c dst }

/-- A filled disc (`ctx.arc` + `fill`). -/
def opFillCircle (cx cy rad : ℚ) (c : Color) : DrawOp :=
  { cover := fun px py => decide ((px - cx)^2 + (py - cy)^2 ≤ rad^2)
    paint := fun _ _ dst => blendOver c dst }

/-- A stroked circle (`ctx.arc` + `stroke`, line width `lw`): the annulus
between radii `rad - lw/2` and `rad + lw/2`. -/
def opStrokeCircle (cx cy rad lw : ℚ) (c : Color) : DrawOp :=
  { cover := fun px py =>
      decide ((rad - lw/2)^2 ≤ (px - cx)^2 + (py - cy)^2 ∧
              (px - cx)^2 + (py - cy)^2 ≤ (rad + lw/2)^2)
    paint := fun _ _ dst => blendOver c dst }

/-- Squared distance from `(px, py)` to the segment `a`–`b`. -/
def segDistSq (a b : Point) (px py : ℚ) : ℚ :=
  let dx := b.x - a.x
  let dy := b.y - a.y
  let len2 := dx * dx + dy * dy
  if len2 = 0 then (px - a.x)^2 + (py - a.y)^2
  else
    let t := max 0 (min 1 (((px - a.x) * dx + (py - a.y) * dy) / len2))
    (px - (a.x + t * dx))^2 + (py - (a.y + t * dy))^2

/-- The consecutive segments of a polyline. -/
def polySegs (pts : List Point) : List (Point × Point) :=
  pts.zip pts.tail

/-- A solid polyline stroke with round caps and joins: pixels within
`lw/2` of some segment. -/
def opStrokePolyline (pts : List Point) (lw : ℚ) (c : Color) : DrawOp :=
  { cover := fun px py =>
      (polySegs pts).any fun ab => decide (segDistSq ab.1 ab.2 px py ≤ (lw/2)^2)
    paint := fun _ _ dst => blendOver c dst }

/-- The dashed centre-line stroke of a main road
(`setLineDash([6,10])`, width 1): coverage delegated to the host-rasteriser
dash oracle. -/
def opDashedPolyline (env : RasterEnv) (pts : List Point) (lw : ℚ)
    (c : Color) : DrawOp :=
  { cover := fun px py => env.dashCover pts lw px py
    paint := fun _ _ dst => blendOver c dst }

/-- `fillText`: glyph coverage delegated to the host-rasteriser oracle. -/
def opFillText (env : RasterEnv) (text : String) (x y : ℚ) (c : Color) :
    DrawOp :=
  { cover := fun px py => env.textCover text x y px py
    paint := fun _ _ dst => blendOver c dst }

/-- The iteration count of a JS loop `for (v = start; v < stop; v += step)`
with positive `step`. -/
def stepCount (start stop step : ℚ) : ℕ := (⌈(stop - start) / step⌉).toNat

/-- The window-column x positions of a lit building
(`for (wx = b.x+3; wx < b.x+b.w-3; wx += 7)`). -/
def windowXs (b : Building) : List ℚ :=
  (List.range (stepCount (b.x + 3) (b.x + b.w - 3) 7)).map
    fun i => b.x + 3 + 7 * i

/-- The window-row y positions of a lit building
(`for (wy = b.y+3; wy < b.y+b.h-3; wy += 6)`). -/
def windowYs (b : Building) : List ℚ :=
  (List.range (stepCount (b.y + 3) (b.y + b.h - 3) 6)).map
    fun i => b.y + 3 + 6 * i

/-- The draw calls of one building: fill, outline, and (if lit and large
enough) the translucent window grid. -/
def buildingOps (b : Building) : List DrawOp :=
  [opFillRect b.x b.y b.w b.h (hslColor b.hue b.sat b.lig),
   opStrokeRect b.x b.y b.w b.h (1/2) (rgba 30 40 55 (5/10))]
  ++ (if b.lit && decide (b.w > 22) && decide (b.h > 18) then
        (windowXs b).flatMap fun wx =>
          (windowYs b).map fun wy =>
            opFillRect wx wy 3 (5/2) (rgba 255 200 80 (15/100))
      else [])

/-- The draw calls of one road segment: the main stroke, plus the dashed
lighter centre line when `main`. -/
def roadOps (env : RasterEnv) (r : RoadSeg) : List DrawOp :=
  [opStrokePolyline r.points r.width
     (if r.main then rgba 55 65 85 (95/100) else rgba 35 45 60 (7/10))]
  ++ (if r.main then [opDashedPolyline env r.points 1 (rgba 90 100 120 (4/10))]
      else [])

/-- A park circle `{x, y, r}`. -/
structure Park where
  x : ℚ
  y : ℚ
  r : ℚ

/-- A text label `{text, x, y}`. -/
structure Label where
  text : String
  x : ℚ
  y : ℚ

/-- The `options` bag of `drawMap`; absent fields omit their layer. -/
structure RenderOptions where
  showWater : Bool := false
  parks : Option (List Park) := none
  route : Option (List Point) := none
  dropPin : Option Point := none
  pickupPin : Option Point := none
  labels : Option (List Label) := none

/-- The draw calls of a drop/pickup pin: outer disc, white ring, inner white
dot. -/
def pinOps (p : Point) (radOuter radInner : ℚ) (c : Color) : List DrawOp :=
  [opFillCircle p.x p.y radOuter c,
   opStrokeCircle p.x p.y radOuter 3 (rgb 255 255 255),
   opFillCircle p.x p.y radInner (rgb 255 255 255)]

/-- The full ordered draw-call list of `drawMap`: clear, background, water,
buildings, parks, roads, route (glow then main), drop pin, pickup pin,
labels. -/
def drawMapOps (env : RasterEnv) (mapW mapH : ℚ) (roads : List RoadSeg)
    (buildings : List Building) (options : RenderOptions) : List DrawOp :=
  [opClearRect 0 0 mapW mapH,
   opFillRect 0 0 mapW mapH (rgb 13 21 32)]
  ++ (if options.showWater then
        [opFillEllipse (mapW + 60) (mapH * (5/10)) 180 500 (rgba 8 25 50 (5/10))]
      else [])
  ++ buildings.flatMap buildingOps
  ++ (match options.parks with
      | some ps => ps.map fun p => opFillCircle p.x p.y p.r (rgba 15 55 25 (4/10))
      | none => [])
  ++ roads.flatMap (roadOps env)
  ++ (match options.route with
      | some rp =>
          [opStrokePolyline rp 22 (rgba 59 130 246 (12/100)),
           opStrokePolyline rp 6 (rgb 59 130 246)]
      | none => [])
  ++ (match options.dropPin with
      | some p => pinOps p 12 5 (rgb 255 68 68)
      | none => [])
  ++ (match options.pickupPin with
      | some p => pinOps p 10 4 (rgb 0 210 106)
      | none => [])
  ++ (match options.labels with
      | some ls => ls.map fun l =>
          opFillText env l.text l.x l.y (rgba 200 200 220 (55/100))
      | none => [])

/-- `drawMap(ctx, mapW, mapH, roads, buildings, options)`: run the draw-call
list over the surface. -/
def drawMap (env : RasterEnv) (mapW mapH : ℚ) (roads : List RoadSeg)
    (buildings : List Building) (options : RenderOptions) (s : Surface) :
    Surface :=
  applyOps (drawMapOps env mapW mapH roads buildings options) s

/-! ## Lemmas about the snapping helper -/

/-- `firstNearestTo` returns a value exactly on non-empty candidate lists. -/
lemma firstNearestTo_cons (t c : ℚ) (cs : List ℚ) :
    ∃ m, firstNearestTo t (c :: cs) = some m := by
  cases h : firstNearestTo t cs with
  | none => exact ⟨c, by simp [firstNearestTo, h]⟩
  | some d =>
      by_cases hd : |d - t| < |c - t|
      · exact ⟨d, by simp [firstNearestTo, h, hd]⟩
      · exact ⟨c, by simp [firstNearestTo, h, hd]⟩

/-- The value picked by `firstNearestTo` is a candidate. -/
lemma firstNearestTo_mem (t : ℚ) :
    ∀ (cands : List ℚ) (m : ℚ), firstNearestTo t cands = some m → m ∈ cands := by
  intro cands
  induction cands with
  | nil => intro m h; simp [firstNearestTo] at h
  | cons c cs ih =>
      intro m h
      cases hcs : firstNearestTo t cs with
      | none => simp [firstNearestTo, hcs] at h; simp [h]
      | some d =>
          simp only [firstNearestTo, hcs] at h
          by_cases hd : |d - t| < |c - t|
          · simp [hd] at h
            exact List.mem_cons_of_mem c (h ▸ ih d hcs)
          · simp [hd] at h
            simp [h]

/-- The value picked by `firstNearestTo` minimises the distance to `t`. -/
lemma firstNearestTo_min (t : ℚ) :
    ∀ (cands : List ℚ) (m : ℚ), firstNearestTo t cands = some m →
      ∀ c ∈ cands, |m - t| ≤ |c - t| := by
  intro cands
  induction cands with
  | nil => intro m h; simp [firstNearestTo] at h
  | cons a as ih =>
      intro m h c hc
      cases has : firstNearestTo t as with
      | none =>
          simp only [firstNearestTo, has] at h
          replace h := Option.some.inj h
          subst h
          rcases List.mem_cons.mp hc with rfl | hc'
          · exact le_refl _
          · exfalso
            cases as with
            | nil => simp at hc'
            | cons b bs =>
                obtain ⟨m', hm'⟩ := firstNearestTo_cons t b bs
                rw [hm'] at has
                exact Option.noConfusion has
      | some e =>
          simp only [firstNearestTo, has] at h
          split_ifs at h with he <;>
            replace h := Option.some.inj h <;> subst h
          · rcases List.mem_cons.mp hc with rfl | hc'
            · exact le_of_lt he
            · exact ih e has c hc'
          · rcases List.mem_cons.mp hc with rfl | hc'
            · exact le_refl _
            · exact le_trans (not_lt.mp he) (ih e has c hc')

/-- The strict-`<` fold of `nearestVX`/`nearestHY` computes the
first-in-order nearest candidate. -/
lemma foldl_pick_eq (t : ℚ) :
    ∀ (cands : List ℚ) (init : ℚ),
      cands.foldl (fun best c => if |c - t| < |best - t| then c else best) init =
        match firstNearestTo t cands with
        | none => init
        | some m => if |m - t| < |init - t| then m else init := by
  intro cands
  induction cands with
  | nil => intro init; simp [firstNearestTo]
  | cons c cs ih =>
      intro init
      rw [List.foldl_cons, ih]
      cases hcs : firstNearestTo t cs with
      | none =>
          simp only [firstNearestTo, hcs]
      | some d =>
          simp only [firstNearestTo, hcs]
          by_cases h1 : |c - t| < |init - t| <;>
            by_cases h2 : |d - t| < |c - t| <;>
              by_cases h3 : |d - t| < |init - t| <;>
                simp [h1, h2, h3] <;> linarith

/-- `nearestLine` agrees with the spec-side first-nearest choice on
non-empty lattices. -/
lemma nearestLine_eq_firstNearestTo (fracs : List ℚ) (scale t : ℚ)
    (h : fracs ≠ []) :
    nearestLine fracs scale t =
      (firstNearestTo t (fracs.map (· * scale))).getD 0 := by
  cases fracs with
  | nil => exact absurd rfl h
  | cons f fs =>
      have hfold : nearestLine (f :: fs) scale t =
          (fs.map (· * scale)).foldl
            (fun best c => if |c - t| < |best - t| then c else best)
            (f * scale) := by
        rw [nearestLine, List.foldl_cons]
        simp [List.foldl_map]
      rw [hfold, foldl_pick_eq]
      simp only [List.map_cons, firstNearestTo]
      cases hfs : firstNearestTo t (fs.map (· * scale)) with
      | none => simp
      | some d =>
          by_cases hd : |d - t| < |f * scale - t| <;> simp [hd]

/-- On a non-empty lattice, `nearestLine` returns a scaled lattice value. -/
lemma nearestLine_mem (fracs : List ℚ) (scale t : ℚ) (h : fracs ≠ []) :
    ∃ f ∈ fracs, nearestLine fracs scale t = f * scale := by
  cases fracs with
  | nil => exact absurd rfl h
  | cons f fs =>
      obtain ⟨m, hm⟩ := firstNearestTo_cons t (f * scale) (fs.map (· * scale))
      have hmem : m ∈ (f :: fs).map (· * scale) := by
        apply firstNearestTo_mem t _ m
        rw [List.map_cons, hm]
      obtain ⟨g, hg, hgm⟩ := List.mem_map.mp hmem
      refine ⟨g, hg, ?_⟩
      rw [nearestLine_eq_firstNearestTo _ _ _ h, List.map_cons, hm]
      exact hgm.symm

/-! ## Claims about the router -/

/-- The route always consists of the start, an optional first jog, the two
mid waypoints, an optional second jog of one or two points, and the end. -/
lemma buildGridRoute_eq (sx sy ex ey : ℚ) (hYs vXs : List ℚ) (mapW mapH : ℚ) :
    buildGridRoute sx sy ex ey hYs vXs mapW mapH =
      [Point.mk sx sy]
      ++ (if |nearestLine vXs mapW sx - sx| > 3
            then [⟨nearestLine vXs mapW sx, sy⟩] else [])
      ++ [⟨nearestLine vXs mapW sx, nearestLine hYs mapH ((sy + ey) * (45/100))⟩,
          ⟨nearestLine vXs mapW ex, nearestLine hYs mapH ((sy + ey) * (45/100))⟩]
      ++ (if |nearestLine hYs mapH ey - nearestLine hYs mapH ((sy + ey) * (45/100))| > 20
            then [⟨nearestLine vXs mapW ex, nearestLine hYs mapH ey⟩]
              ++ (if |nearestLine vXs mapW ex - ex| > 3
                    then [⟨ex, nearestLine hYs mapH ey⟩] else [])
            else [])
      ++ [⟨ex, ey⟩] := rfl

/-- C1 counterexample: the claim "buildGridRoute returns between 2 and 6
points" fails — for start (300, 100) and end (500, 1100) on the 1200×1200
grid all three conditional waypoints fire and the route has 7 points. -/
theorem buildGridRoute_seven_points :
    ¬ (buildGridRoute 300 100 500 1100 hYfracs vXfracs 1200 1200).length ≤ 6 := by
  have h7 : (buildGridRoute 300 100 500 1100 hYfracs vXfracs 1200 1200).length
      = 7 := by
    simp only [buildGridRoute, nearestLine, hYfracs, vXfracs, List.foldl,
      List.headD]
    norm_num
  omega

/-- C1 (amended): for every start point, end point, grid and extent,
`buildGridRoute` returns an ordered sequence of between 2 and 7 points
inclusive. -/
theorem buildGridRoute_length_bounds (sx sy ex ey : ℚ) (hYs vXs : List ℚ)
    (mapW mapH : ℚ) :
    2 ≤ (buildGridRoute sx sy ex ey hYs vXs mapW mapH).length ∧
    (buildGridRoute sx sy ex ey hYs vXs mapW mapH).length ≤ 7 := by
  rw [buildGridRoute_eq]
  split_ifs <;> simp [List.length_append]

/-- Dropping the first and last element of a `[s] ++ A ++ mid ++ B ++ [e]`
route leaves the interior `A ++ mid ++ B`. -/
lemma drop_dropLast_decomp {α : Type} (s e : α) (A mid B : List α) :
    ((([s] ++ A ++ mid ++ B ++ [e]).drop 1).dropLast) = A ++ mid ++ B := by
  have h1 : [s] ++ A ++ mid ++ B ++ [e] = s :: ((A ++ mid ++ B) ++ [e]) := by
    simp only [List.cons_append, List.nil_append, List.append_assoc]
  rw [h1, List.drop_one, List.tail_cons, List.dropLast_concat]

/-- C2: the route starts exactly at the requested start, ends exactly at the
requested end, and every interior point lies (within 1e-6, in fact exactly)
on a vertical or horizontal lattice line of the grid used to build it. -/
theorem buildGridRoute_snapping (sx sy ex ey : ℚ) (hYs vXs : List ℚ)
    (mapW mapH : ℚ) (hH : hYs ≠ []) (hV : vXs ≠ []) :
    (buildGridRoute sx sy ex ey hYs vXs mapW mapH).head? = some ⟨sx, sy⟩ ∧
    (buildGridRoute sx sy ex ey hYs vXs mapW mapH).getLast? = some ⟨ex, ey⟩ ∧
    ∀ p ∈ ((buildGridRoute sx sy ex ey hYs vXs mapW mapH).drop 1).dropLast,
      (∃ f ∈ vXs, |p.x - f * mapW| ≤ 1/1000000) ∨
      (∃ f ∈ hYs, |p.y - f * mapH| ≤ 1/1000000) := by
  obtain ⟨fv1, hfv1, hv1⟩ := nearestLine_mem vXs mapW sx hV
  obtain ⟨fv2, hfv2, hv2⟩ := nearestLine_mem vXs mapW ex hV
  obtain ⟨fh1, hfh1, hh1⟩ :=
    nearestLine_mem hYs mapH ((sy + ey) * (45/100)) hH
  obtain ⟨fh2, hfh2, hh2⟩ := nearestLine_mem hYs mapH ey hH
  rw [buildGridRoute_eq]
  split_ifs <;>
    refine ⟨rfl, rfl, ?_⟩ <;>
    · rw [drop_dropLast_decomp]
      intro p hp
      simp only [List.mem_append, List.mem_cons, List.mem_singleton,
        List.not_mem_nil, or_false, false_or, or_assoc] at hp
      first
        | (rcases hp with rfl | rfl)
        | (rcases hp with rfl | rfl | rfl)
        | (rcases hp with rfl | rfl | rfl | rfl)
        | (rcases hp with rfl | rfl | rfl | rfl | rfl)
      all_goals
        first
          | (left; exact ⟨fv1, hfv1, by rw [hv1]; norm_num⟩)
          | (left; exact ⟨fv2, hfv2, by rw [hv2]; norm_num⟩)
          | (right; exact ⟨fh2, hfh2, by rw [hh2]; norm_num⟩)

/-- C2 witness: the reference scenario start (580, 850), end (260, 120) on
the 1200×1200 grid. -/
theorem buildGridRoute_snapping_witness :
    (buildGridRoute 580 850 260 120 hYfracs vXfracs 1200 1200).head? =
        some ⟨580, 850⟩ ∧
    (buildGridRoute 580 850 260 120 hYfracs vXfracs 1200 1200).getLast? =
        some ⟨260, 120⟩ ∧
    ∀ p ∈ ((buildGridRoute 580 850 260 120 hYfracs vXfracs 1200 1200).drop 1).dropLast,
      (∃ f ∈ vXfracs, |p.x - f * 1200| ≤ 1/1000000) ∨
      (∃ f ∈ hYfracs, |p.y - f * 1200| ≤ 1/1000000) :=
  buildGridRoute_snapping 580 850 260 120 hYfracs vXfracs 1200 1200
    (by decide) (by decide)

/-- C3: `buildGridRoute` coincides with the spec-side route construction
(first-nearest snapping with the 3-unit and 20-unit thresholds and the
nested second-jog insertion), and the spec-side `firstNearestTo` choice is a
candidate of minimal absolute distance (ties to the first in order by
construction). -/
theorem buildGridRoute_refines_spec (sx sy ex ey : ℚ) (hYs vXs : List ℚ)
    (mapW mapH : ℚ) (hH : hYs ≠ []) (hV : vXs ≠ []) :
    buildGridRoute sx sy ex ey hYs vXs mapW mapH =
      buildGridRouteSpec ⟨sx, sy⟩ ⟨ex, ey⟩ hYs vXs mapW mapH ∧
    (∀ (t : ℚ) (cands : List ℚ) (m : ℚ), firstNearestTo t cands = some m →
      m ∈ cands ∧ ∀ c ∈ cands, |m - t| ≤ |c - t|) := by
  constructor
  · rw [buildGridRoute_eq]
    simp only [buildGridRouteSpec]
    rw [nearestLine_eq_firstNearestTo vXs mapW sx hV,
        nearestLine_eq_firstNearestTo vXs mapW ex hV,
        nearestLine_eq_firstNearestTo hYs mapH ((sy + ey) * (45/100)) hH,
        nearestLine_eq_firstNearestTo hYs mapH ey hH]
  · exact fun t cands m hm =>
      ⟨firstNearestTo_mem t cands m hm, firstNearestTo_min t cands m hm⟩

/-- C3 witness: the refinement at the reference scenario. -/
theorem buildGridRoute_refines_spec_witness :
    buildGridRoute 580 850 260 120 hYfracs vXfracs 1200 1200 =
      buildGridRouteSpec ⟨580, 850⟩ ⟨260, 120⟩ hYfracs vXfracs 1200 1200 :=
  (buildGridRoute_refines_spec 580 850 260 120 hYfracs vXfracs 1200 1200
    (by decide) (by decide)).1

/-- C10: the two mid waypoints are pushed unconditionally, so every route
has at least 4 points; and when start and end snap to the same vertical
lattice line the two mid waypoints are equal and appear as consecutive
duplicate points of the route. -/
theorem buildGridRoute_mid_waypoints (sx sy ex ey : ℚ) (hYs vXs : List ℚ)
    (mapW mapH : ℚ) :
    4 ≤ (buildGridRoute sx sy ex ey hYs vXs mapW mapH).length ∧
    Point.mk (nearestLine vXs mapW sx)
        (nearestLine hYs mapH ((sy + ey) * (45/100))) ∈
      buildGridRoute sx sy ex ey hYs vXs mapW mapH ∧
    Point.mk (nearestLine vXs mapW ex)
        (nearestLine hYs mapH ((sy + ey) * (45/100))) ∈
      buildGridRoute sx sy ex ey hYs vXs mapW mapH ∧
    (nearestLine vXs mapW sx = nearestLine vXs mapW ex →
      ∃ i, (buildGridRoute sx sy ex ey hYs vXs mapW mapH)[i]? =
            some ⟨nearestLine vXs mapW sx,
                  nearestLine hYs mapH ((sy + ey) * (45/100))⟩ ∧
          (buildGridRoute sx sy ex ey hYs vXs mapW mapH)[i+1]? =
            some ⟨nearestLine vXs mapW sx,
                  nearestLine hYs mapH ((sy + ey) * (45/100))⟩) := by
  rw [buildGridRoute_eq]
  split_ifs <;>
    refine ⟨by simp [List.length_append], by simp, by simp, fun h => ?_⟩ <;>
      rw [h] <;>
        first
          | exact ⟨1, rfl, rfl⟩
          | exact ⟨2, rfl, rfl⟩

/-- C10 witness: start (230, 100) and end (250, 1100) both snap to the
vertical lattice line x = 240, and the route repeats the mid waypoint. -/
theorem buildGridRoute_mid_waypoints_witness :
    ∃ i, (buildGridRoute 230 100 250 1100 hYfracs vXfracs 1200 1200)[i]? =
          some ⟨nearestLine vXfracs 1200 230,
                nearestLine hYfracs 1200 ((100 + 1100) * (45/100))⟩ ∧
        (buildGridRoute 230 100 250 1100 hYfracs vXfracs 1200 1200)[i+1]? =
          some ⟨nearestLine vXfracs 1200 230,
                nearestLine hYfracs 1200 ((100 + 1100) * (45/100))⟩ :=
  (buildGridRoute_mid_waypoints 230 100 250 1100 hYfracs vXfracs
    1200 1200).2.2.2
    (by simp only [nearestLine, vXfracs, List.foldl, List.headD]; norm_num)

/-! ## Claims about the building generator -/

/-- Iterating the Lehmer state composes additively. -/
lemma lehmerState_add (seed : ℤ) (a b : ℕ) :
    lehmerState seed (a + b) = lehmerState (lehmerState seed a) b := by
  induction b with
  | zero => rfl
  | succ n ih => rw [← Nat.add_assoc, lehmerState, lehmerState, ih]

/-- One loop iteration advances the generator by exactly eight draws. -/
lemma mkBuilding_snd (mapW mapH : ℚ) (s : ℤ) :
    (mkBuilding mapW mapH s).2 = lehmerState s 8 := rfl

/-- The building loop produces exactly `n` buildings. -/
lemma buildingsLoop_length (mapW mapH : ℚ) :
    ∀ (n : ℕ) (s : ℤ), (buildingsLoop mapW mapH n s).length = n := by
  intro n
  induction n with
  | zero => intro s; rfl
  | succ m ih => intro s; simp [buildingsLoop, ih]

/-- The `i`-th building of the loop is built from the Lehmer state after
`8 * i` draws. -/
lemma buildingsLoop_getElem (mapW mapH : ℚ) :
    ∀ (i n : ℕ) (s : ℤ), i < n →
      (buildingsLoop mapW mapH n s)[i]? =
        some (mkBuilding mapW mapH (lehmerState s (8 * i))).1 := by
  intro i
  induction i with
  | zero =>
      intro n s hn
      cases n with
      | zero => omega
      | succ m => simp [buildingsLoop, lehmerState]
  | succ j ih =>
      intro n s hn
      cases n with
      | zero => omega
      | succ m =>
          have hunfold : buildingsLoop mapW mapH (m + 1) s =
              (mkBuilding mapW mapH s).1 ::
                buildingsLoop mapW mapH m (mkBuilding mapW mapH s).2 := by
            simp [buildingsLoop]
          have harith : 8 + 8 * j = 8 * (j + 1) := by ring
          rw [hunfold, List.getElem?_cons_succ, ih m _ (by omega),
            mkBuilding_snd, ← lehmerState_add, harith]

/-- C4: `generateBuildings` is deterministic given `(W, H, seed)`, produces
exactly 110 buildings, the `i`-th building is built from the eight
successive Lehmer draws starting after `8 * i` steps of
`s := (s * 16807) mod (2^31 - 1)` from `seed`, and its lit flag is set if
and only if its own (eighth) draw exceeds 0.65. -/
theorem createFixedBuildings_deterministic_stream (mapW mapH : ℚ) (seed : ℤ)
    (i : ℕ) (hi : i < 110) :
    createFixedBuildings mapW mapH seed = createFixedBuildings mapW mapH seed ∧
    (createFixedBuildings mapW mapH seed).length = 110 ∧
    (createFixedBuildings mapW mapH seed)[i]? =
      some (mkBuilding mapW mapH (lehmerState seed (8 * i))).1 ∧
    ∀ b, (createFixedBuildings mapW mapH seed)[i]? = some b →
      (b.lit = true ↔ rngVal (lehmerState seed (8 * i + 8)) > 65/100) := by
  refine ⟨rfl, buildingsLoop_length mapW mapH 110 seed,
    buildingsLoop_getElem mapW mapH i 110 seed hi, fun b hb => ?_⟩
  have hb' : (buildingsLoop mapW mapH 110 seed)[i]? = some b := hb
  rw [buildingsLoop_getElem mapW mapH i 110 seed hi] at hb'
  replace hb := Option.some.inj hb'
  have hlit : b.lit =
      decide (rngVal (lehmerState (lehmerState seed (8 * i)) 8) > 65/100) := by
    rw [← hb]; rfl
  rw [hlit, ← lehmerState_add]
  simp [decide_eq_true_iff]

/-- C4 witness: the third building of the seed-42 scenario is drawn from the
Lehmer state after 16 steps. -/
theorem createFixedBuildings_deterministic_stream_witness :
    (createFixedBuildings 1200 1200 42)[2]? =
      some (mkBuilding 1200 1200 (lehmerState 42 (8 * 2))).1 :=
  (createFixedBuildings_deterministic_stream 1200 1200 42 2
    (by norm_num)).2.2.1

/-! ## Claims about the road grid -/

/-- `countP` over an indexed map whose predicate ignores the index. -/
lemma mapIdxFrom_countP {α β : Type} (f : ℕ → α → β) (p : β → Bool)
    (q : α → Bool) (hpq : ∀ i a, p (f i a) = q a) :
    ∀ (l : List α) (i : ℕ), (mapIdxFrom f i l).countP p = l.countP q := by
  intro l
  induction l with
  | nil => intro i; rfl
  | cons a as ih =>
      intro i
      simp [mapIdxFrom, List.countP_cons, ih, hpq]

/-- Members of an indexed map are values of the function. -/
lemma mem_mapIdxFrom {α β : Type} {f : ℕ → α → β} :
    ∀ {l : List α} {i : ℕ} {b : β}, b ∈ mapIdxFrom f i l →
      ∃ j a, a ∈ l ∧ b = f j a := by
  intro l
  induction l with
  | nil => intro i b h; simp [mapIdxFrom] at h
  | cons a as ih =>
      intro i b h
      rcases List.mem_cons.mp h with rfl | h'
      · exact ⟨i, a, List.mem_cons_self a as, rfl⟩
      · obtain ⟨j, a', ha', hb⟩ := ih h'
        exact ⟨j, a', List.mem_cons_of_mem a ha', hb⟩

/-- In a duplicate-free list every member is counted exactly once. -/
lemma countP_eq_one_of_nodup {α : Type} [DecidableEq α] :
    ∀ (l : List α), l.Nodup → ∀ y ∈ l,
      l.countP (fun a => decide (a = y)) = 1 := by
  intro l
  induction l with
  | nil => intro _ y hy; simp at hy
  | cons a as ih =>
      intro hnd y hy
      rw [List.countP_cons]
      rcases List.mem_cons.mp hy with rfl | hy'
      · have hzero : as.countP (fun b => decide (b = y)) = 0 :=
          List.countP_eq_zero.mpr (fun b hb hby => by
            rw [decide_eq_true_iff] at hby
            exact (List.nodup_cons.mp hnd).1 (hby ▸ hb))
        simp [hzero]
      · have ha : ¬ (a = y) := fun h => (List.nodup_cons.mp hnd).1 (h ▸ hy')
        have hrec := ih (List.nodup_cons.mp hnd).2 y hy'
        simp [hrec, ha]

/-- The horizontal road fractions are pairwise distinct. -/
lemma hYfracs_nodup : hYfracs.Nodup := by
  norm_num [hYfracs, List.nodup_cons, List.mem_cons]

/-- The vertical road fractions are pairwise distinct. -/
lemma vXfracs_nodup : vXfracs.Nodup := by
  norm_num [vXfracs, List.nodup_cons, List.mem_cons]

/-- All horizontal road fractions are strictly positive. -/
lemma hYfracs_pos : ∀ f ∈ hYfracs, 0 < f := by
  intro f hf
  fin_cases hf <;> norm_num

/-- All vertical road fractions are strictly positive. -/
lemma vXfracs_pos : ∀ f ∈ vXfracs, 0 < f := by
  intro f hf
  fin_cases hf <;> norm_num

/-- C5: the road grid is determined by the extent alone, with 12 horizontal
and 8 vertical lattice lines at the fixed fractions, each lattice line
carried by exactly one axis-aligned road segment with matching endpoints,
every third line (index mod 3 = 0) main and the others secondary, plus
exactly the two fixed extent-scaled diagonal segments. -/
theorem createFixedRoadGrid_structure (mapW mapH : ℚ) (hW : 0 < mapW)
    (hH : 0 < mapH) :
    (createFixedRoadGrid mapW mapH).hYs = hYfracs ∧
    (createFixedRoadGrid mapW mapH).vXs = vXfracs ∧
    hYfracs.length = 12 ∧ vXfracs.length = 8 ∧
    (createFixedRoadGrid mapW mapH).roads.length = 22 ∧
    (∀ y ∈ hYfracs,
      (createFixedRoadGrid mapW mapH).roads.countP
        (fun r => decide (r.points =
          [⟨-50, mapH * y⟩, ⟨mapW + 50, mapH * y⟩])) = 1) ∧
    (∀ x ∈ vXfracs,
      (createFixedRoadGrid mapW mapH).roads.countP
        (fun r => decide (r.points =
          [⟨mapW * x, -50⟩, ⟨mapW * x, mapH + 50⟩])) = 1) ∧
    (∀ i, i < 12 →
      ((createFixedRoadGrid mapW mapH).roads[i]?.map RoadSeg.main) =
        some (decide (i % 3 = 0))) ∧
    (∀ j, j < 8 →
      ((createFixedRoadGrid mapW mapH).roads[12 + j]?.map RoadSeg.main) =
        some (decide (j % 3 = 0))) ∧
    (createFixedRoadGrid mapW mapH).roads[20]? = some
      { points := [⟨mapW * (8/100), mapH * (8/100)⟩,
                   ⟨mapW * (55/100), mapH * (42/100)⟩],
        width := 4, main := false } ∧
    (createFixedRoadGrid mapW mapH).roads[21]? = some
      { points := [⟨mapW * (65/100), mapH * (15/100)⟩,
                   ⟨mapW * (88/100), mapH * (65/100)⟩],
        width := 7/2, main := false } := by
  have hroads : (createFixedRoadGrid mapW mapH).roads =
      mapIdxFrom (hRoadSeg mapW mapH) 0 hYfracs
      ++ (mapIdxFrom (vRoadSeg mapW mapH) 0 vXfracs
      ++ diagSegs mapW mapH) := by
    simp [createFixedRoadGrid, List.append_assoc]
  refine ⟨rfl, rfl, rfl, rfl, rfl, ?_, ?_, ?_, ?_, rfl, rfl⟩
  · -- each horizontal lattice line is covered by exactly one segment
    intro y hy
    rw [hroads, List.countP_append, List.countP_append]
    have h1 : (mapIdxFrom (hRoadSeg mapW mapH) 0 hYfracs).countP
        (fun r => decide (r.points =
          [⟨-50, mapH * y⟩, ⟨mapW + 50, mapH * y⟩])) = 1 := by
      rw [mapIdxFrom_countP (hRoadSeg mapW mapH) _
        (fun f => decide (f = y)) ?_ hYfracs 0]
      · exact countP_eq_one_of_nodup hYfracs hYfracs_nodup y hy
      · intro i f
        rw [decide_eq_decide]
        simp [hRoadSeg, Point.mk.injEq, mul_right_inj' (ne_of_gt hH)]
    have h2 : (mapIdxFrom (vRoadSeg mapW mapH) 0 vXfracs).countP
        (fun r => decide (r.points =
          [⟨-50, mapH * y⟩, ⟨mapW + 50, mapH * y⟩])) = 0 := by
      refine List.countP_eq_zero.mpr ?_
      intro r hr hp
      obtain ⟨j, f, hf, rfl⟩ := mem_mapIdxFrom hr
      rw [decide_eq_true_iff] at hp
      simp only [vRoadSeg, Point.mk.injEq, List.cons.injEq,
        List.cons_ne_nil, and_true] at hp
      have hpos : 0 < mapW * f := mul_pos hW (vXfracs_pos f hf)
      linarith [hp.1.1]
    have h3 : (diagSegs mapW mapH).countP
        (fun r => decide (r.points =
          [⟨-50, mapH * y⟩, ⟨mapW + 50, mapH * y⟩])) = 0 := by
      refine List.countP_eq_zero.mpr ?_
      intro r hr hp
      rw [decide_eq_true_iff] at hp
      rw [diagSegs] at hr
      rcases List.mem_cons.mp hr with rfl | hr'
      · simp only [Point.mk.injEq, List.cons.injEq, List.cons_ne_nil,
          and_true] at hp
        linarith [hp.1.1]
      · rcases List.mem_singleton.mp hr' with rfl
        simp only [Point.mk.injEq, List.cons.injEq, List.cons_ne_nil,
          and_true] at hp
        linarith [hp.1.1]
    rw [h1, h2, h3]
  · -- each vertical lattice line is covered by exactly one segment
    intro x hx
    rw [hroads, List.countP_append, List.countP_append]
    have h1 : (mapIdxFrom (hRoadSeg mapW mapH) 0 hYfracs).countP
        (fun r => decide (r.points =
          [⟨mapW * x, -50⟩, ⟨mapW * x, mapH + 50⟩])) = 0 := by
      refine List.countP_eq_zero.mpr ?_
      intro r hr hp
      obtain ⟨j, f, hf, rfl⟩ := mem_mapIdxFrom hr
      rw [decide_eq_true_iff] at hp
      simp only [hRoadSeg, Point.mk.injEq, List.cons.injEq,
        List.cons_ne_nil, and_true] at hp
      have hpos : 0 < mapH * f := mul_pos hH (hYfracs_pos f hf)
      linarith [hp.1.2]
    have h2 : (mapIdxFrom (vRoadSeg mapW mapH) 0 vXfracs).countP
        (fun r => decide (r.points =
          [⟨mapW * x, -50⟩, ⟨mapW * x, mapH + 50⟩])) = 1 := by
      rw [mapIdxFrom_countP (vRoadSeg mapW mapH) _
        (fun f => decide (f = x)) ?_ vXfracs 0]
      · exact countP_eq_one_of_nodup vXfracs vXfracs_nodup x hx
      · intro i f
        rw [decide_eq_decide]
        simp [vRoadSeg, Point.mk.injEq, mul_right_inj' (ne_of_gt hW)]
    have h3 : (diagSegs mapW mapH).countP
        (fun r => decide (r.points =
          [⟨mapW * x, -50⟩, ⟨mapW * x, mapH + 50⟩])) = 0 := by
      refine List.countP_eq_zero.mpr ?_
      intro r hr hp
      rw [decide_eq_true_iff] at hp
      rw [diagSegs] at hr
      rcases List.mem_cons.mp hr with rfl | hr'
      · simp only [Point.mk.injEq, List.cons.injEq, List.cons_ne_nil,
          and_true] at hp
        have hpos : 0 < mapH * (8/100) := by positivity
        linarith [hp.1.2]
      · rcases List.mem_singleton.mp hr' with rfl
        simp only [Point.mk.injEq, List.cons.injEq, List.cons_ne_nil,
          and_true] at hp
        have hpos : 0 < mapH * (15/100) := by positivity
        linarith [hp.1.2]
    rw [h1, h2, h3]
  · intro i hi
    interval_cases i <;> rfl
  · intro j hj
    interval_cases j <;> rfl

/-- C5 witness: the structure at the reference 1200×1200 extent. -/
theorem createFixedRoadGrid_structure_witness :
    (createFixedRoadGrid 1200 1200).hYs = hYfracs ∧
    (createFixedRoadGrid 1200 1200).roads.length = 22 :=
  ⟨(createFixedRoadGrid_structure 1200 1200 (by norm_num) (by norm_num)).1,
   (createFixedRoadGrid_structure 1200 1200 (by norm_num)
     (by norm_num)).2.2.2.2.1⟩

/-! ## Claims about the camera -/

/-- C6: with zero drift offset, the computed translate-then-scale transform
sends the tracked position exactly to the screen centre, for every screen
size, zoom and tracked position; and `updateMapTransform` is exactly the
spec transform at the fixed `ZOOM`. -/
theorem camera_centering :
    (∀ (screenW screenH zoom : ℚ) (tracked : Point),
      applyTransform (computeTransform screenW screenH zoom tracked ⟨0, 0⟩).1
          (computeTransform screenW screenH zoom tracked ⟨0, 0⟩).2
          zoom tracked =
        ⟨screenW / 2, screenH / 2⟩) ∧
    ∀ (screenW screenH : ℚ) (carPos : Point) (gx gy : ℚ),
      updateMapTransform screenW screenH carPos gx gy =
        computeTransform screenW screenH ZOOM carPos ⟨gx, gy⟩ := by
  constructor
  · intro screenW screenH zoom tracked
    simp only [applyTransform, computeTransform, Point.mk.injEq]
    constructor <;> ring
  · intro screenW screenH carPos gx gy
    rfl

/-- C7: a drift update stores the componentwise clamp of the raw offset
(x to [-100, 100], y to [-150, 150]); the raw offset (500, -900) is stored
as exactly (100, -150); and after any sequence of drift updates from a
fresh state the stored offset lies within the bounds. -/
theorem drift_clamping :
    clampDrift ⟨500, -900⟩ = ⟨100, -150⟩ ∧
    (∀ (st : NavState) (raw : Point),
      (applyDrift st raw).gpsOffsetX = (clampDrift raw).x ∧
      (applyDrift st raw).gpsOffsetY = (clampDrift raw).y) ∧
    ∀ (carPos : Point) (updates : List Point),
      -100 ≤ (driftAfter carPos updates).gpsOffsetX ∧
      (driftAfter carPos updates).gpsOffsetX ≤ 100 ∧
      -150 ≤ (driftAfter carPos updates).gpsOffsetY ∧
      (driftAfter carPos updates).gpsOffsetY ≤ 150 := by
  refine ⟨?_, fun st raw => ⟨rfl, rfl⟩, ?_⟩
  · simp only [clampDrift, Point.mk.injEq]
    norm_num
  · intro carPos updates
    have hinv : ∀ (l : List Point) (st : NavState),
        -100 ≤ st.gpsOffsetX → st.gpsOffsetX ≤ 100 →
        -150 ≤ st.gpsOffsetY → st.gpsOffsetY ≤ 150 →
        -100 ≤ (l.foldl applyDrift st).gpsOffsetX ∧
        (l.foldl applyDrift st).gpsOffsetX ≤ 100 ∧
        -150 ≤ (l.foldl applyDrift st).gpsOffsetY ∧
        (l.foldl applyDrift st).gpsOffsetY ≤ 150 := by
      intro l
      induction l with
      | nil => intro st h1 h2 h3 h4; exact ⟨h1, h2, h3, h4⟩
      | cons u us ih =>
          intro st _ _ _ _
          rw [List.foldl_cons]
          refine ih (applyDrift st u) ?_ ?_ ?_ ?_ <;> simp [applyDrift]
    exact hinv updates ⟨carPos, none, 0, 0⟩ (by norm_num) (by norm_num)
      (by norm_num) (by norm_num)

/-- C9: rendering a new route resets the camera state — the tracked position
becomes the new route's start, the drift offset becomes (0, 0) and the GPS
baseline is cleared — regardless of the state before the render; the route
drawn is the grid route from start to end on the 1200×1200 grid and the
installed transform is the reset-state transform. -/
theorem renderNavRoute_resets_camera (screenW screenH : ℚ) (st : NavState)
    (routeStart routeEnd : Point) :
    (renderNavRoute screenW screenH st routeStart routeEnd).1.currentCarPos =
        routeStart ∧
    (renderNavRoute screenW screenH st routeStart routeEnd).1.gpsOffsetX = 0 ∧
    (renderNavRoute screenW screenH st routeStart routeEnd).1.gpsOffsetY = 0 ∧
    (renderNavRoute screenW screenH st routeStart routeEnd).1.gpsBaseLatLng =
        none ∧
    (renderNavRoute screenW screenH st routeStart routeEnd).2.1 =
      buildGridRoute routeStart.x routeStart.y routeEnd.x routeEnd.y
        hYfracs vXfracs MAP_SCALE MAP_SCALE ∧
    (renderNavRoute screenW screenH st routeStart routeEnd).2.2 =
      updateMapTransform screenW screenH routeStart 0 0 :=
  ⟨rfl, rfl, rfl, rfl, rfl, rfl⟩

/-! ## Claims about the renderer -/

/-- A draw-call pipeline reads the input surface only at the queried pixel:
surfaces agreeing at a pixel stay equal there under any op sequence. -/
lemma applyOps_pointwise :
    ∀ (ops : List DrawOp) (s₁ s₂ : Surface) (px py : ℚ),
      s₁ px py = s₂ px py →
      applyOps ops s₁ px py = applyOps ops s₂ px py := by
  intro ops
  induction ops with
  | nil => intro s₁ s₂ px py h; exact h
  | cons op rest ih =>
      intro s₁ s₂ px py h
      show applyOps rest (applyOp s₁ op) px py =
        applyOps rest (applyOp s₂ op) px py
      apply ih
      simp only [applyOp]
      rw [h]

/-- C8: rendering is idempotent and the resulting pixels (inside the
extent, which is all the canvas holds) do not depend on the surface
contents before the call — the draw starts by clearing and filling the full
extent with the solid background. -/
theorem drawMap_independent_idempotent (env : RasterEnv) (mapW mapH : ℚ)
    (roads : List RoadSeg) (buildings : List Building)
    (options : RenderOptions) (s₁ s₂ : Surface) (px py : ℚ)
    (hx0 : 0 ≤ px) (hxW : px ≤ mapW) (hy0 : 0 ≤ py) (hyH : py ≤ mapH) :
    drawMap env mapW mapH roads buildings options s₁ px py =
      drawMap env mapW mapH roads buildings options s₂ px py ∧
    drawMap env mapW mapH roads buildings options
        (drawMap env mapW mapH roads buildings options s₁) px py =
      drawMap env mapW mapH roads buildings options s₁ px py := by
  have hcover : inRect 0 0 mapW mapH px py = true := by
    simp only [inRect, decide_eq_true_iff]
    exact ⟨hx0, by linarith, hy0, by linarith⟩
  have key : ∀ (t₁ t₂ : Surface),
      drawMap env mapW mapH roads buildings options t₁ px py =
      drawMap env mapW mapH roads buildings options t₂ px py := by
    intro t₁ t₂
    have hstep : ∀ t : Surface,
        drawMap env mapW mapH roads buildings options t =
          applyOps (drawMapOps env mapW mapH roads buildings options).tail.tail
            (applyOp (applyOp t (opClearRect 0 0 mapW mapH))
              (opFillRect 0 0 mapW mapH (rgb 13 21 32))) := fun t => rfl
    rw [hstep t₁, hstep t₂]
    apply applyOps_pointwise
    simp only [applyOp, opClearRect, opFillRect, hcover, if_true]
  exact ⟨key s₁ s₂,
    key (drawMap env mapW mapH roads buildings options s₁) s₁⟩

/-- C8 witness: two surfaces of different prior contents render to the same
pixel value at (50, 50) on a 100×100 extent with empty scene layers. -/
theorem drawMap_independent_idempotent_witness :
    drawMap ⟨fun _ _ _ _ => false, fun _ _ _ _ _ => false⟩ 100 100 [] []
        {} (fun _ _ => ⟨1, 1, 1, 1⟩) 50 50 =
      drawMap ⟨fun _ _ _ _ => false, fun _ _ _ _ _ => false⟩ 100 100 [] []
        {} (fun _ _ => ⟨0, 0, 0, 0⟩) 50 50 :=
  (drawMap_independent_idempotent
    ⟨fun _ _ _ _ => false, fun _ _ _ _ _ => false⟩ 100 100 [] [] {}
    (fun _ _ => ⟨1, 1, 1, 1⟩) (fun _ _ => ⟨0, 0, 0, 0⟩) 50 50
    (by norm_num) (by norm_num) (by norm_num) (by norm_num)).1

end UberClone
